import Mathlib

/-!
Verification of the metrics-computation layer of the marketing analytics
dashboard (`enanced_MD.py`).

The SQL aggregation queries are shallowly embedded as pure Lean functions
over a relational `Database` value.  Dates are modelled as integer day
numbers (`DATE(...)` values); user identifiers are strings (every query
casts ids with `::TEXT`).  `UNION` is modelled as concatenation followed
by `List.dedup`, `UNION ALL` as plain concatenation, `COUNT(DISTINCT ...)`
as `countDistinct`, joins as list products, and `LEFT JOIN` as a flat map
producing one `none`-row when no partner matches.
-/

namespace MD

/-- A row of the `users` table: `id::TEXT`, `DATE(created_at)` (signup
date) and the `restricted` flag. -/
structure UserRow where
  uid : String
  signup : Int
  restricted : Bool
deriving DecidableEq, Repr

/-- A row of the `transactions` table, with the columns the queries read:
`status`, `DATE(updated_at)`, the two nullable foreign keys `plan_id` and
`investment_plan_id`, and `provider_number`. -/
structure TxRow where
  status : String
  updatedAt : Int
  planId : Option Int
  investmentPlanId : Option Int
  providerNumber : String
deriving DecidableEq, Repr

/-- The fixed feature enumeration used by every query. -/
inductive Feature where
  | spending
  | savings
  | investment
  | lady_ai
deriving DecidableEq, Repr

/-- A `(user_id, activity_date, feature)` row of the feature-usage union. -/
structure Event where
  uid : String
  date : Int
  feature : Feature
deriving DecidableEq, Repr

/-- The read-only relational schema the dashboard queries.  `budgets` and
`manual_and_external_transactions` are reduced to their
`(user_id, DATE(created_at))` projections, `plans` / `investment_plans`
to `(id, user_id)`, `slack_message_dump` to `("user", DATE(created_at))`.
`financial_simulator_v2` / `financial_simulator_reviews` rows are opaque
payloads (the loader only does `SELECT *`). -/
structure Database where
  users : List UserRow
  budgets : List (String × Int)
  manualTx : List (String × Int)
  transactions : List TxRow
  plans : List (Int × String)
  investmentPlans : List (Int × String)
  slackMessages : List (String × Int)
  ffpRows : List String
  ffpReviews : List String
deriving Repr

/-- The transaction filter shared by the savings and investment branches:
`t.status = 'success' AND t.provider_number != 'Flex Dollar'`. -/
def txOk (t : TxRow) : Bool :=
  decide (t.status = "success" ∧ t.providerNumber ≠ "Flex Dollar")

/-- `transactions JOIN investment_plans ip ON ip.id = t.investment_plan_id`
under `txOk`, projected to `(user_id, DATE(updated_at))`. -/
def investmentEvents (db : Database) : List (String × Int) :=
  (db.transactions.filter txOk).flatMap fun t =>
    (db.investmentPlans.filter fun ip => decide (some ip.1 = t.investmentPlanId)).map fun ip =>
      (ip.2, t.updatedAt)

/-- `transactions JOIN plans p ON p.id = t.plan_id` under `txOk`,
projected to `(user_id, DATE(updated_at))`. -/
def savingsEvents (db : Database) : List (String × Int) :=
  (db.transactions.filter txOk).flatMap fun t =>
    (db.plans.filter fun p => decide (some p.1 = t.planId)).map fun p =>
      (p.2, t.updatedAt)

/-- The `all_feature_usage` CTE: the deduplicating `UNION` of the four
feature sources (budgets and manual transactions tagged `spending`, the
investment join, the savings join, and the slack dump tagged `lady_ai`),
in the order the query lists them. -/
def allFeatureUsage (db : Database) : List Event :=
  ((db.budgets.map fun b => Event.mk b.1 b.2 .spending)
    ++ (db.manualTx.map fun b => Event.mk b.1 b.2 .spending)
    ++ ((investmentEvents db).map fun p => Event.mk p.1 p.2 .investment)
    ++ ((savingsEvents db).map fun p => Event.mk p.1 p.2 .savings)
    ++ (db.slackMessages.map fun b => Event.mk b.1 b.2 .lady_ai)).dedup

/-- `activity_date BETWEEN s AND e` (closed interval on both ends). -/
def inWindow (s e d : Int) : Bool :=
  decide (s ≤ d ∧ d ≤ e)

/-- The feature-usage rows restricted to the queried window. -/
def windowUsage (db : Database) (s e : Int) : List Event :=
  (allFeatureUsage db).filter fun ev => inWindow s e ev.date

/-- `COUNT(DISTINCT ...)`. -/
def countDistinct {α : Type} [DecidableEq α] (l : List α) : Nat :=
  l.dedup.length

/-- The `users_filtered` CTE of `fetch_comprehensive_metrics`:
non-restricted users projected to `(user_id, signup_date)`. -/
def usersFiltered (db : Database) : List (String × Int) :=
  (db.users.filter fun u => !u.restricted).map fun u => (u.uid, u.signup)

/-- The distinct user ids of the `user_activity_summary` CTE: users with at
least one feature-usage row inside the window. -/
def summaryUsers (db : Database) (s e : Int) : List String :=
  ((windowUsage db s e).map Event.uid).dedup

/-- `active_days_in_period`: `COUNT(DISTINCT activity_date)` of a user's
in-window usage. -/
def activeDays (db : Database) (s e : Int) (uid : String) : Nat :=
  countDistinct (((windowUsage db s e).filter fun ev => decide (ev.uid = uid)).map Event.date)

/-- `MIN` over a list of dates (`none` on the empty group, like SQL `MIN`
over no rows). -/
def minDate (l : List Int) : Option Int :=
  l.foldr (fun d acc => match acc with
    | none => some d
    | some m => some (min d m)) none

/-- The `first_ever_activity` CTE: each user's earliest feature usage ever,
across all history. -/
def firstEver (db : Database) (uid : String) : Option Int :=
  minDate (((allFeatureUsage db).filter fun ev => decide (ev.uid = uid)).map Event.date)

/-- One row of the `user_classification` CTE. -/
structure ClassRow where
  uid : String
  signup : Int
  firstEverDate : Option Int
  activeDaysInPeriod : Nat
deriving DecidableEq, Repr

/-- The `user_classification` CTE: the summary users joined with
`users_filtered` (inner join on `user_id`) and left-joined with
`first_ever_activity`. -/
def userClassification (db : Database) (s e : Int) : List ClassRow :=
  (summaryUsers db s e).flatMap fun uid =>
    ((usersFiltered db).filter fun p => decide (p.1 = uid)).map fun p =>
      ClassRow.mk uid p.2 (firstEver db uid) (activeDays db s e uid)

/-- `total_signups`: non-restricted users whose signup date lies in the
window. -/
def total_signups (db : Database) (s e : Int) : Nat :=
  (db.users.filter fun u => !u.restricted && inWindow s e u.signup).length

/-- `total_active_users`: `COUNT(DISTINCT user_id) FROM user_classification`. -/
def total_active_users (db : Database) (s e : Int) : Nat :=
  countDistinct ((userClassification db s e).map ClassRow.uid)

/-- `one_time_usage_users`: classification rows with exactly one distinct
active day. -/
def one_time_usage_users (db : Database) (s e : Int) : Nat :=
  ((userClassification db s e).filter fun r => decide (r.activeDaysInPeriod = 1)).length

/-- `recurring_users`: classification rows with two or more distinct active
days. -/
def recurring_users (db : Database) (s e : Int) : Nat :=
  ((userClassification db s e).filter fun r => decide (2 ≤ r.activeDaysInPeriod)).length

/-- The `is_first_time_user` flag: `first_ever_activity_date BETWEEN s AND e`
(`FALSE` on a null first-ever date). -/
def isFirstTimeFlag (s e : Int) (r : ClassRow) : Bool :=
  match r.firstEverDate with
  | some d => inWindow s e d
  | none => false

/-- `first_time_users`: classification rows whose `is_first_time_user` flag
is true. -/
def first_time_users (db : Database) (s e : Int) : Nat :=
  ((userClassification db s e).filter (isFirstTimeFlag s e)).length

/-- Per-feature active users: `COUNT(DISTINCT user_id)` of the in-window
usage rows of one feature. -/
def feature_users (db : Database) (s e : Int) (f : Feature) : Nat :=
  countDistinct (((windowUsage db s e).filter fun ev => decide (ev.feature = f)).map Event.uid)

/-- `COUNT(DISTINCT feature)` of a user's in-window usage. -/
def featureCountOf (db : Database) (s e : Int) (uid : String) : Nat :=
  countDistinct (((windowUsage db s e).filter fun ev => decide (ev.uid = uid)).map Event.feature)

/-- `single_feature_users`: in-window users grouped by `user_id` with
`HAVING COUNT(DISTINCT feature) = 1`. -/
def single_feature_users (db : Database) (s e : Int) : Nat :=
  ((summaryUsers db s e).filter fun uid => decide (featureCountOf db s e uid = 1)).length

/-- `multiple_feature_users`: in-window users with
`HAVING COUNT(DISTINCT feature) > 1`. -/
def multiple_feature_users (db : Database) (s e : Int) : Nat :=
  ((summaryUsers db s e).filter fun uid => decide (1 < featureCountOf db s e uid)).length

/-- `only_<feature>_users`: in-window users who used exactly one distinct
feature and that feature (`MAX(feature)`) is `f`. -/
def only_feature_users (db : Database) (s e : Int) (f : Feature) : Nat :=
  ((summaryUsers db s e).filter fun uid =>
    decide (featureCountOf db s e uid = 1)
      && ((windowUsage db s e).any fun ev => decide (ev.uid = uid ∧ ev.feature = f))).length

/-- The `users_filtered` CTE of `fetch_feature_specific_metrics` and the
`signups` CTE of `fetch_retention_metrics`: non-restricted users whose
signup date lies in the window, projected to `(user_id, signup_date)`. -/
def usersFilteredInWindow (db : Database) (s e : Int) : List (String × Int) :=
  (db.users.filter fun u => !u.restricted && inWindow s e u.signup).map fun u => (u.uid, u.signup)

/-- The per-feature `feature_usage` sub-queries (window filter inside each
branch).  The `spending` branch is a deduplicating `UNION` of two selects;
the other branches are single selects, so their duplicates survive. -/
def featureWindowEvents (db : Database) (s e : Int) (f : Feature) : List (String × Int) :=
  match f with
  | .spending =>
      ((db.budgets.filter fun b => inWindow s e b.2)
        ++ (db.manualTx.filter fun b => inWindow s e b.2)).dedup
  | .savings => (savingsEvents db).filter fun p => inWindow s e p.2
  | .investment => (investmentEvents db).filter fun p => inWindow s e p.2
  | .lady_ai => db.slackMessages.filter fun b => inWindow s e b.2

/-- The `user_first_activity` CTE of `fetch_feature_specific_metrics`:
`MIN(activity_date)` of the (window-restricted) feature usage of a user. -/
def userFirstActivity (db : Database) (s e : Int) (f : Feature) (uid : String) : Option Int :=
  minDate (((featureWindowEvents db s e f).filter fun p => decide (p.1 = uid)).map Prod.snd)

/-- The join-and-compare of `fetch_feature_specific_metrics`: the user's
window-restricted first feature activity exists (the inner join matches)
and is on or after the signup date. -/
def featureFirstAtLeastSignup (db : Database) (s e : Int) (f : Feature)
    (uid : String) (sg : Int) : Bool :=
  match userFirstActivity db s e f uid with
  | some d => decide (sg ≤ d)
  | none => false

/-- `first_time_users` of `fetch_feature_specific_metrics`: `COUNT(*)` of
`users_filtered` joined with `user_first_activity` where
`first_activity_date >= signup_date` (the grouped CTE has one row per
user, so the join contributes one row per matching filtered user). -/
def feature_first_time_users (db : Database) (s e : Int) (f : Feature) : Nat :=
  ((usersFilteredInWindow db s e).filter fun p =>
    featureFirstAtLeastSignup db s e f p.1 p.2).length

/-- The activity selection shared (textually duplicated) by
`fetch_retention_metrics` and `fetch_trend_data`: the per-feature branch
when a feature filter is given, or the deduplicating `UNION` of all four
sources otherwise, each with the window filter inside the branch. -/
def windowEventsFor (db : Database) (s e : Int) (f : Option Feature) : List (String × Int) :=
  match f with
  | some feat => featureWindowEvents db s e feat
  | none =>
      ((db.budgets.filter fun b => inWindow s e b.2)
        ++ (db.manualTx.filter fun b => inWindow s e b.2)
        ++ ((investmentEvents db).filter fun p => inWindow s e p.2)
        ++ ((savingsEvents db).filter fun p => inWindow s e p.2)
        ++ (db.slackMessages.filter fun b => inWindow s e b.2)).dedup

/-- One row of the `joined` CTE of `fetch_retention_metrics`
(`signups LEFT JOIN activity`): `activity = none` encodes the SQL NULL of
an unmatched signup. -/
structure JoinedRow where
  uid : String
  signup : Int
  activity : Option Int
deriving DecidableEq, Repr

/-- `signups LEFT JOIN activity ON user_id`: one row per matching activity
row, or a single null row when the user has none. -/
def retentionJoined (db : Database) (s e : Int) (f : Option Feature) : List JoinedRow :=
  (usersFilteredInWindow db s e).flatMap fun su =>
    if ((windowEventsFor db s e f).filter fun a => decide (a.1 = su.1)).isEmpty then
      [JoinedRow.mk su.1 su.2 none]
    else
      ((windowEventsFor db s e f).filter fun a => decide (a.1 = su.1)).map fun a =>
        JoinedRow.mk su.1 su.2 (some a.2)

/-- `total_signups` of the retention query: `COUNT(DISTINCT user_id)` over
the joined rows. -/
def retention_total_signups (db : Database) (s e : Int) (f : Option Feature) : Nat :=
  countDistinct ((retentionJoined db s e f).map JoinedRow.uid)

/-- `activity_date = signup_date + INTERVAL '1 day'` (false on NULL). -/
def day1Flag (r : JoinedRow) : Bool :=
  decide (r.activity = some (r.signup + 1))

/-- `activity_date BETWEEN signup_date + 1 day AND signup_date + 7 days`. -/
def week1Flag (r : JoinedRow) : Bool :=
  match r.activity with
  | some d => decide (r.signup + 1 ≤ d ∧ d ≤ r.signup + 7)
  | none => false

/-- `activity_date BETWEEN signup_date + 1 day AND signup_date + 30 days`. -/
def month1Flag (r : JoinedRow) : Bool :=
  match r.activity with
  | some d => decide (r.signup + 1 ≤ d ∧ d ≤ r.signup + 30)
  | none => false

/-- `COUNT(DISTINCT user_id) FILTER (WHERE ...)` over the joined rows. -/
def retentionNumerator (db : Database) (s e : Int) (f : Option Feature)
    (flag : JoinedRow → Bool) : Nat :=
  countDistinct (((retentionJoined db s e f).filter flag).map JoinedRow.uid)

/-- `numerator::FLOAT / NULLIF(denominator, 0)`: SQL division by a
`NULLIF` that hits zero yields NULL, modelled as `none`; otherwise the
exact rational quotient. -/
def retentionRate (num den : Nat) : Option ℚ :=
  if den = 0 then none else some ((num : ℚ) / (den : ℚ))

/-- The `day1_retention` column. -/
def day1_retention (db : Database) (s e : Int) (f : Option Feature) : Option ℚ :=
  retentionRate (retentionNumerator db s e f day1Flag) (retention_total_signups db s e f)

/-- The `week1_retention` column. -/
def week1_retention (db : Database) (s e : Int) (f : Option Feature) : Option ℚ :=
  retentionRate (retentionNumerator db s e f week1Flag) (retention_total_signups db s e f)

/-- The `month1_retention` column. -/
def month1_retention (db : Database) (s e : Int) (f : Option Feature) : Option ℚ :=
  retentionRate (retentionNumerator db s e f month1Flag) (retention_total_signups db s e f)

/-! ### Calendar arithmetic

Day numbers count days since 1970-01-01 (a Thursday); conversions use the
standard civil-calendar algorithms with flooring integer division (Lean's
`Int` division and modulus are Euclidean, which agrees with flooring for
the positive divisors used here). -/

/-- `DATE_TRUNC('week', d)`: the preceding Monday (day 4 is the first
Monday after the epoch). -/
def dateTruncWeek (d : Int) : Int :=
  d - (d - 4) % 7

/-- Convert a day number to `(year, month, day)` of the proleptic
Gregorian calendar. -/
def civilFromDays (d : Int) : Int × Int × Int :=
  let z := d + 719468
  let era := z / 146097
  let doe := z - era * 146097
  let yoe := (doe - doe / 1460 + doe / 36524 - doe / 146096) / 365
  let y := yoe + era * 400
  let doy := doe - (365 * yoe + yoe / 4 - yoe / 100)
  let mp := (5 * doy + 2) / 153
  let dd := doy - (153 * mp + 2) / 5 + 1
  let m := if mp < 10 then mp + 3 else mp - 9
  (if m ≤ 2 then y + 1 else y, m, dd)

/-- Convert a civil `(year, month, day)` to a day number. -/
def daysFromCivil (y m d : Int) : Int :=
  let y2 := if m ≤ 2 then y - 1 else y
  let era := y2 / 400
  let yoe := y2 - era * 400
  let mp := if 2 < m then m - 3 else m + 9
  let doy := (153 * mp + 2) / 5 + d - 1
  let doe := yoe * 365 + yoe / 4 - yoe / 100 + doy
  era * 146097 + doe - 719468

/-- `DATE_TRUNC('month', d)`: the first day of the month of `d`. -/
def dateTruncMonth (d : Int) : Int :=
  let c := civilFromDays d
  daysFromCivil c.1 c.2.1 1

/-- Gregorian leap year test. -/
def isLeap (y : Int) : Bool :=
  (y % 4 == 0 && y % 100 != 0) || y % 400 == 0

/-- Number of days in a civil month. -/
def daysInMonth (y m : Int) : Int :=
  if m = 2 then (if isLeap y then 29 else 28)
  else if m = 4 ∨ m = 6 ∨ m = 9 ∨ m = 11 then 30 else 31

/-- `d + INTERVAL 'k months'` with the day-of-month clamped to the end of
the target month, as PostgreSQL does. -/
def addMonths (d k : Int) : Int :=
  let c := civilFromDays d
  let t := 12 * c.1 + (c.2.1 - 1) + k
  let y2 := t / 12
  let m2 := t % 12 + 1
  daysFromCivil y2 m2 (min c.2.2 (daysInMonth y2 m2))

/-- The trend aggregation granularities of `fetch_overview_trend`. -/
inductive Granularity where
  | day
  | week
  | month
deriving DecidableEq, Repr

/-- The `i`-th element of `generate_series(s, e, interval)` for the
granularity's step. -/
def seriesStep (g : Granularity) (s : Int) (i : Nat) : Int :=
  match g with
  | .day => s + i
  | .week => s + 7 * (i : Int)
  | .month => addMonths s i

/-- `generate_series(s, e, step)`: the steps from `s` that do not pass `e`
(empty when `e < s`). -/
def generatedSeries (g : Granularity) (s e : Int) : List Int :=
  ((List.range (e + 1 - s).toNat).map fun i => seriesStep g s i).filter fun d => decide (d ≤ e)

/-- The per-granularity date truncation applied to activity dates. -/
def dateTruncFor (g : Granularity) (d : Int) : Int :=
  match g with
  | .day => d
  | .week => dateTruncWeek d
  | .month => dateTruncMonth d

/-! ### `fetch_trend_data` -/

/-- The sparse DAU series of `fetch_trend_data`: in-window activity grouped
by `activity_date` with `COUNT(DISTINCT user_id)` — only dates with at
least one usage row form a group. -/
def dauSeries (db : Database) (s e : Int) (f : Option Feature) : List (Int × Nat) :=
  (((windowEventsFor db s e f).map Prod.snd).dedup).map fun d =>
    (d, countDistinct (((windowEventsFor db s e f).filter fun p => decide (p.2 = d)).map Prod.fst))

/-- The sparse WAU series: grouped by `DATE_TRUNC('week', activity_date)`. -/
def wauSeries (db : Database) (s e : Int) (f : Option Feature) : List (Int × Nat) :=
  (((windowEventsFor db s e f).map fun p => dateTruncWeek p.2).dedup).map fun w =>
    (w, countDistinct (((windowEventsFor db s e f).filter fun p =>
      decide (dateTruncWeek p.2 = w)).map Prod.fst))

/-- The sparse MAU series: grouped by `DATE_TRUNC('month', activity_date)`. -/
def mauSeries (db : Database) (s e : Int) (f : Option Feature) : List (Int × Nat) :=
  (((windowEventsFor db s e f).map fun p => dateTruncMonth p.2).dedup).map fun m =>
    (m, countDistinct (((windowEventsFor db s e f).filter fun p =>
      decide (dateTruncMonth p.2 = m)).map Prod.fst))

/-! ### `fetch_overview_trend` -/

/-- The `all_feature_usage` CTE of `fetch_overview_trend`: `UNION ALL`
(no deduplication) of the four window-filtered feature sources. -/
def overviewUsage (db : Database) (s e : Int) : List Event :=
  ((db.budgets.filter fun b => inWindow s e b.2).map fun b => Event.mk b.1 b.2 .spending)
    ++ ((db.manualTx.filter fun b => inWindow s e b.2).map fun b => Event.mk b.1 b.2 .spending)
    ++ (((investmentEvents db).filter fun p => inWindow s e p.2).map fun p =>
          Event.mk p.1 p.2 .investment)
    ++ (((savingsEvents db).filter fun p => inWindow s e p.2).map fun p =>
          Event.mk p.1 p.2 .savings)
    ++ ((db.slackMessages.filter fun b => inWindow s e b.2).map fun b => Event.mk b.1 b.2 .lady_ai)

/-- The `active` CTE: per truncated period, `COUNT(DISTINCT user_id)` of
the usage rows in that period — only periods with at least one row appear. -/
def overviewActiveBy (db : Database) (s e : Int) (g : Granularity) : List (Int × Nat) :=
  (((overviewUsage db s e).map fun ev => dateTruncFor g ev.date).dedup).map fun d =>
    (d, countDistinct (((overviewUsage db s e).filter fun ev =>
      decide (dateTruncFor g ev.date = d)).map Event.uid))

/-- The `(activity_date, active_users)` projection of the result of
`fetch_overview_trend`: the generated calendar series left-joined against
the sparse `active` groups, missing periods coalesced to 0.  (The other
columns of the row — signups and the per-feature and absolute counts —
are built by the same left-join-and-coalesce pattern and are not referenced
by any claim.) -/
def overviewTrendActive (db : Database) (s e : Int) (g : Granularity) : List (Int × Nat) :=
  (generatedSeries g s e).map fun d =>
    (d, (((overviewActiveBy db s e g).find? fun p => decide (p.1 = d)).map Prod.snd).getD 0)

/-! ### `fetch_churn_count` -/

/-- The feature-usage union of `fetch_churn_count`: same four sources, but
projected to `(user_id, activity_date)` before the deduplicating `UNION`. -/
def churnEvents (db : Database) : List (String × Int) :=
  (db.budgets
    ++ db.manualTx
    ++ investmentEvents db
    ++ savingsEvents db
    ++ db.slackMessages).dedup

/-- `churn_count`: users with some activity on or before `e` (`users_ever`)
anti-joined against users with activity in `[s, e]` (`users_in_period`). -/
def churn_count (db : Database) (s e : Int) : Nat :=
  ((((churnEvents db).filter fun p => decide (p.2 ≤ e)).map Prod.fst).dedup.filter fun u =>
    !decide (u ∈ (((churnEvents db).filter fun p => inWindow s e p.2).map Prod.fst).dedup)).length

/-! ### `fetch_dormant_users_analysis` -/

/-- Whether a usage row passes the optional feature filter of the dormant
analysis (`none` is the overall case, `some f` the per-feature case). -/
def featMatch (f : Option Feature) (ev : Event) : Bool :=
  match f with
  | none => true
  | some feat => decide (ev.feature = feat)

/-- The `historical_users` / `current_users` (and per-feature) CTEs:
distinct users with a matching usage row with `activity_date BETWEEN a AND b`. -/
def usersActiveIn (db : Database) (f : Option Feature) (a b : Int) : List String :=
  (((allFeatureUsage db).filter fun ev => featMatch f ev && inWindow a b ev.date).map
    Event.uid).dedup

/-- The dormant CTEs: the historical window is
`BETWEEN analysis_start - n AND analysis_start` (the code passes
`historical_start = analysis_start - timedelta(days=n)` and
`analysis_start` as the bounds), anti-joined against the analysis-window
users. -/
def dormantUsers (db : Database) (f : Option Feature) (s e : Int) (n : Nat) : List String :=
  (usersActiveIn db f (s - (n : Int)) s).filter fun u =>
    !decide (u ∈ usersActiveIn db f s e)

/-- The `overall_dormant_users` column. -/
def overall_dormant_users (db : Database) (s e : Int) (n : Nat) : Nat :=
  (dormantUsers db none s e n).length

/-- The per-feature `<feature>_dormant_users` columns. -/
def feature_dormant_users (db : Database) (f : Feature) (s e : Int) (n : Nat) : Nat :=
  (dormantUsers db (some f) s e n).length

/-- The `total_historical_users` column. -/
def total_historical_users (db : Database) (s : Int) (n : Nat) : Nat :=
  (usersActiveIn db none (s - (n : Int)) s).length

/-- The `total_current_users` column. -/
def total_current_users (db : Database) (s e : Int) : Nat :=
  (usersActiveIn db none s e).length

/-! ### `fetch_feature_combinations` -/

/-- The alphabetical order of the feature tags, as used by
`STRING_AGG(DISTINCT feature, ' + ' ORDER BY feature)`. -/
def featureOrder : List Feature :=
  [.investment, .lady_ai, .savings, .spending]

/-- The sorted, deduplicated feature combination of a user's in-window
usage (the pieces of the `STRING_AGG` label, in label order). -/
def comboOf (db : Database) (s e : Int) (uid : String) : List Feature :=
  featureOrder.filter fun f =>
    (windowUsage db s e).any fun ev => decide (ev.uid = uid ∧ ev.feature = f)

/-- The users of the `user_features` CTE: `HAVING COUNT(DISTINCT feature) > 1`. -/
def multiFeatureUserIds (db : Database) (s e : Int) : List String :=
  (summaryUsers db s e).filter fun uid => decide (1 < featureCountOf db s e uid)

/-- `ROUND(x, 2)` of PostgreSQL `numeric` (round half away from zero; all
inputs here are nonnegative). -/
def roundTo2 (q : ℚ) : ℚ :=
  ((⌊q * 100 + 1 / 2⌋ : ℤ) : ℚ) / 100

/-- One result row of `fetch_feature_combinations`. -/
structure ComboRow where
  combo : List Feature
  userCount : Nat
  percentage : ℚ
deriving DecidableEq, Repr

/-- The result of `fetch_feature_combinations`: one row per distinct
combination label with its user count and its rounded share of all
multi-feature users (the `ORDER BY user_count DESC` presentation order is
not modelled). -/
def featureCombinations (db : Database) (s e : Int) : List ComboRow :=
  let ids := multiFeatureUserIds db s e
  ((ids.map fun uid => comboOf db s e uid).dedup).map fun c =>
    let cnt := (ids.filter fun uid => decide (comboOf db s e uid = c)).length
    ComboRow.mk c cnt (roundTo2 ((cnt : ℚ) * 100 / (ids.length : ℚ)))

/-! ### Result cache -/

/-- A stored cache entry: the memoized value and the time it was stored. -/
structure CacheEntry (α : Type) where
  value : α
  storedAt : Nat
deriving DecidableEq, Repr

/-- Modelled from the spec: the result cache itself (`st.cache_data`) is
framework code outside this repository; the spec describes it as
`get_or_compute(queryIdentity, args)` — on the first call for a key the
underlying query runs and the result is stored with a timestamp; a later
call within the TTL returns the stored result without re-querying; after
expiry the next call recomputes and replaces the entry; the key includes
all arguments, so calls differing in any argument are distinct entries;
eviction is lazy, checked at access time. -/
def getOrCompute {κ α : Type} [DecidableEq κ] (ttl now : Nat) (compute : κ → α)
    (cache : List (κ × CacheEntry α)) (key : κ) : α × List (κ × CacheEntry α) :=
  match cache.find? fun p => decide (p.1 = key) with
  | some p =>
      if now - p.2.storedAt < ttl then (p.2.value, cache)
      else (compute key,
        (key, CacheEntry.mk (compute key) now) :: cache.filter fun q => decide (q.1 ≠ key))
  | none => (compute key, (key, CacheEntry.mk (compute key) now) :: cache)

/-! ### Query functions with the connection guard

Each `fetch_*` function first acquires a connection (`conn : Option
Database`; `none` is the failed acquisition reported by
`get_database_connection`) and returns its empty / zero default without
raising when the connection is unavailable.  The embedded functions are
total, so no exception can escape them. -/

/-- The single result row of `fetch_comprehensive_metrics` (the averaged
DAU/WAU/MAU columns are real-valued and not referenced by any claim;
they are omitted from the modelled row). -/
structure MetricsRow where
  total_signups : Nat
  total_active_users : Nat
  one_time_usage_users : Nat
  recurring_users : Nat
  first_time_users : Nat
  spending_users : Nat
  savings_users : Nat
  investment_users : Nat
  lady_ai_users : Nat
  single_feature_users : Nat
  multiple_feature_users : Nat
  only_spending_users : Nat
  only_savings_users : Nat
  only_investment_users : Nat
  only_lady_ai_users : Nat
deriving DecidableEq, Repr

/-- The computed row of `fetch_comprehensive_metrics`. -/
def comprehensiveRow (db : Database) (s e : Int) : MetricsRow where
  total_signups := total_signups db s e
  total_active_users := total_active_users db s e
  one_time_usage_users := one_time_usage_users db s e
  recurring_users := recurring_users db s e
  first_time_users := first_time_users db s e
  spending_users := feature_users db s e .spending
  savings_users := feature_users db s e .savings
  investment_users := feature_users db s e .investment
  lady_ai_users := feature_users db s e .lady_ai
  single_feature_users := single_feature_users db s e
  multiple_feature_users := multiple_feature_users db s e
  only_spending_users := only_feature_users db s e .spending
  only_savings_users := only_feature_users db s e .savings
  only_investment_users := only_feature_users db s e .investment
  only_lady_ai_users := only_feature_users db s e .lady_ai

/-- `fetch_comprehensive_metrics`: an empty frame on connection failure,
otherwise the one-row frame. -/
def fetchComprehensiveMetrics (conn : Option Database) (s e : Int) : List MetricsRow :=
  match conn with
  | none => []
  | some db => [comprehensiveRow db s e]

/-- The single result row of `fetch_retention_metrics`. -/
structure RetentionRow where
  total_signups : Nat
  day1 : Option ℚ
  week1 : Option ℚ
  month1 : Option ℚ
deriving DecidableEq, Repr

/-- `fetch_retention_metrics`: an empty frame on connection failure. -/
def fetchRetentionMetrics (conn : Option Database) (s e : Int) (f : Option Feature) :
    List RetentionRow :=
  match conn with
  | none => []
  | some db =>
      [RetentionRow.mk (retention_total_signups db s e f) (day1_retention db s e f)
        (week1_retention db s e f) (month1_retention db s e f)]

/-- The single result row of `fetch_feature_specific_metrics` (again
without the averaged real-valued columns, which no claim references). -/
structure FeatureMetricsRow where
  total_active_users : Nat
  first_time_users : Nat
  recurring_users : Nat
deriving DecidableEq, Repr

/-- `COUNT(DISTINCT user_id)` of the feature usage. -/
def feature_total_active_users (db : Database) (s e : Int) (f : Feature) : Nat :=
  countDistinct ((featureWindowEvents db s e f).map Prod.fst)

/-- `recurring_users` of `fetch_feature_specific_metrics`:
`HAVING COUNT(DISTINCT activity_date) > 1` per user. -/
def feature_recurring_users (db : Database) (s e : Int) (f : Feature) : Nat :=
  (((featureWindowEvents db s e f).map Prod.fst).dedup.filter fun uid =>
    decide (1 < countDistinct (((featureWindowEvents db s e f).filter fun p =>
      decide (p.1 = uid)).map Prod.snd))).length

/-- `fetch_feature_specific_metrics`: an empty frame on connection failure. -/
def fetchFeatureSpecificMetrics (conn : Option Database) (s e : Int) (f : Feature) :
    List FeatureMetricsRow :=
  match conn with
  | none => []
  | some db =>
      [FeatureMetricsRow.mk (feature_total_active_users db s e f)
        (feature_first_time_users db s e f) (feature_recurring_users db s e f)]

/-- `fetch_trend_data`: three empty frames on connection failure. -/
def fetchTrendData (conn : Option Database) (s e : Int) (f : Option Feature) :
    List (Int × Nat) × List (Int × Nat) × List (Int × Nat) :=
  match conn with
  | none => ([], [], [])
  | some db => (dauSeries db s e f, wauSeries db s e f, mauSeries db s e f)

/-- `fetch_overview_trend`: an empty frame on connection failure. -/
def fetchOverviewTrend (conn : Option Database) (s e : Int) (g : Granularity) :
    List (Int × Nat) :=
  match conn with
  | none => []
  | some db => overviewTrendActive db s e g

/-- `fetch_churn_count`: the integer `0` on connection failure. -/
def fetchChurnCount (conn : Option Database) (s e : Int) : Nat :=
  match conn with
  | none => 0
  | some db => churn_count db s e

/-- The single result row of `fetch_dormant_users_analysis`. -/
structure DormantRow where
  overall_dormant_users : Nat
  spending_dormant_users : Nat
  savings_dormant_users : Nat
  investment_dormant_users : Nat
  lady_ai_dormant_users : Nat
  total_historical_users : Nat
  total_current_users : Nat
deriving DecidableEq, Repr

/-- `fetch_dormant_users_analysis`: an empty frame on connection failure. -/
def fetchDormantUsersAnalysis (conn : Option Database) (s e : Int) (n : Nat) :
    List DormantRow :=
  match conn with
  | none => []
  | some db =>
      [DormantRow.mk (overall_dormant_users db s e n)
        (feature_dormant_users db .spending s e n)
        (feature_dormant_users db .savings s e n)
        (feature_dormant_users db .investment s e n)
        (feature_dormant_users db .lady_ai s e n)
        (total_historical_users db s n)
        (total_current_users db s e)]

/-- `fetch_feature_combinations`: an empty frame on connection failure. -/
def fetchFeatureCombinations (conn : Option Database) (s e : Int) : List ComboRow :=
  match conn with
  | none => []
  | some db => featureCombinations db s e

/-- `load_ffp_data`: two empty frames when the load fails. -/
def loadFfpData (conn : Option Database) : List String × List String :=
  match conn with
  | none => ([], [])
  | some db => (db.ffpRows, db.ffpReviews)

/-- The `analysis_dates` CTE of `fetch_dormant_users_trend`: the distinct
activity dates of the usage union inside the analysis window. -/
def analysisDates (db : Database) (s e : Int) : List Int :=
  ((windowUsage db s e).map Event.date).dedup

/-- One group of the `daily_dormant` CTE: for the analysis date `d`, the
historical users (active in `BETWEEN start - n AND start`) anti-joined
against the distinct `(user_id, activity_date)` pairs of the analysis
window at exactly that date — users with no activity on day `d`. -/
def dormantCountOn (db : Database) (s e : Int) (n : Nat) (d : Int) : Nat :=
  ((usersActiveIn db none (s - (n : Int)) s).filter fun u =>
    !((windowUsage db s e).any fun ev => decide (ev.uid = u ∧ ev.date = d))).length

/-- The result of `fetch_dormant_users_trend`'s query: one `(date, count)`
row per analysis date whose anti-join keeps at least one historical user —
a date where every historical user was active (or with no historical
users at all) forms no group and is omitted.  (The `ORDER BY`
presentation order is not modelled.) -/
def dormantTrendRows (db : Database) (s e : Int) (n : Nat) : List (Int × Nat) :=
  ((analysisDates db s e).map fun d => (d, dormantCountOn db s e n d)).filter fun p =>
    decide (0 < p.2)

/-- `fetch_dormant_users_trend`: an empty frame on connection failure. -/
def fetchDormantUsersTrend (conn : Option Database) (s e : Int) (n : Nat) :
    List (Int × Nat) :=
  match conn with
  | none => []
  | some db => dormantTrendRows db s e n

/-- The `feature_usage` CTE of `fetch_absolute_metrics`: the deduplicating
`UNION` of the five sources with only an upper date bound (cumulative
since inception). -/
def absoluteUsage (db : Database) (e : Int) : List (String × Int) :=
  ((db.budgets.filter fun b => decide (b.2 ≤ e))
    ++ (db.manualTx.filter fun b => decide (b.2 ≤ e))
    ++ ((investmentEvents db).filter fun p => decide (p.2 ≤ e))
    ++ ((savingsEvents db).filter fun p => decide (p.2 ≤ e))
    ++ (db.slackMessages.filter fun b => decide (b.2 ≤ e))).dedup

/-- `absolute_total_signups`: non-restricted users who signed up on or
before the end date. -/
def absolute_total_signups (db : Database) (e : Int) : Nat :=
  (db.users.filter fun u => decide (u.signup ≤ e) && !u.restricted).length

/-- `absolute_total_active_users`: `COUNT(DISTINCT user_id)` of the
cumulative usage union. -/
def absolute_total_active_users (db : Database) (e : Int) : Nat :=
  countDistinct ((absoluteUsage db e).map Prod.fst)

/-- `fetch_absolute_metrics`: the empty dict on connection failure,
otherwise the single result row converted to a dict keyed by column name
(a dict is modelled as an association list). -/
def fetchAbsoluteMetrics (conn : Option Database) (e : Int) : List (String × Nat) :=
  match conn with
  | none => []
  | some db =>
      [("absolute_total_signups", absolute_total_signups db e),
        ("absolute_total_active_users", absolute_total_active_users db e)]

/-! ### Spec-side definitions and concrete databases used to settle the claims -/

/-- The classification the spec claims for `first_time_users`: first-ever
activity within the window AND on or after the signup date (the embedded
`isFirstTimeFlag` has no signup-date comparison). -/
def claimedFirstTimeFlag (s e : Int) (r : ClassRow) : Bool :=
  match r.firstEverDate with
  | some d => inWindow s e d && decide (r.signup ≤ d)
  | none => false

/-- The `first_time_users` count the spec's sentence would produce. -/
def claimedFirstTimeUsers (db : Database) (s e : Int) : Nat :=
  ((userClassification db s e).filter (claimedFirstTimeFlag s e)).length

/-- All distinct users appearing anywhere in the feature-usage union. -/
def allUserIds (db : Database) : List String :=
  ((allFeatureUsage db).map Event.uid).dedup

/-- The `is_first_time_user` condition of the comprehensive query, keyed
by the user: the earliest activity ever lies inside the window. -/
def firstEverInWindow (db : Database) (s e : Int) (u : String) : Bool :=
  match firstEver db u with
  | some d => inWindow s e d
  | none => false

/-- The spec's dormancy predicate: at least one (feature-matching) activity
event in the half-open lookback window `[s - n, s)` and none in the closed
analysis window `[s, e]`. -/
def specDormant (db : Database) (f : Option Feature) (s e : Int) (n : Nat) (u : String) :
    Prop :=
  (∃ ev ∈ allFeatureUsage db, ev.uid = u ∧ featMatch f ev = true ∧
      s - (n : Int) ≤ ev.date ∧ ev.date < s) ∧
    ∀ ev ∈ allFeatureUsage db, ev.uid = u → featMatch f ev = true →
      ¬(s ≤ ev.date ∧ ev.date ≤ e)

instance (db : Database) (f : Option Feature) (s e : Int) (n : Nat) (u : String) :
    Decidable (specDormant db f s e n u) := by
  unfold specDormant
  infer_instance

/-- The raw per-feature activity rows before any date filtering — the
tables each branch of the activity union reads. -/
def rawPairsFor (db : Database) (f : Option Feature) : List (String × Int) :=
  match f with
  | some .spending => db.budgets ++ db.manualTx
  | some .savings => savingsEvents db
  | some .investment => investmentEvents db
  | some .lady_ai => db.slackMessages
  | none =>
      db.budgets ++ db.manualTx ++ investmentEvents db ++ savingsEvents db
        ++ db.slackMessages

/-- A type-erased view of a query function's return value: a single frame
with its row count, a triple or pair of frames, or a plain integer. -/
inductive QueryReturn where
  | frame (rowCount : Nat)
  | frameTriple (a b c : Nat)
  | framePair (a b : Nat)
  | intValue (n : Nat)
deriving DecidableEq, Repr

/-- Whether a returned value is a single empty frame. -/
def isEmptyTable : QueryReturn → Bool
  | .frame 0 => true
  | _ => false

/-- The type-erased return of `fetch_comprehensive_metrics`. -/
def comprehensiveReturn (conn : Option Database) (s e : Int) : QueryReturn :=
  .frame (fetchComprehensiveMetrics conn s e).length

/-- The type-erased return of `fetch_churn_count` (a plain integer). -/
def churnReturn (conn : Option Database) (s e : Int) : QueryReturn :=
  .intValue (fetchChurnCount conn s e)

/-- The type-erased return of `fetch_trend_data` (three frames). -/
def trendReturn (conn : Option Database) (s e : Int) (f : Option Feature) : QueryReturn :=
  .frameTriple (fetchTrendData conn s e f).1.length (fetchTrendData conn s e f).2.1.length
    (fetchTrendData conn s e f).2.2.length

/-- A minimal database: no registered users, one budget row for `u1` on
day 0.  (The usage union reads activity tables directly, so activity of an
unregistered — or restricted — user is possible.) -/
def dbNoUsers : Database :=
  ⟨[], [("u1", 0)], [], [], [], [], [], [], []⟩

/-- One non-restricted user `u1` signing up on day 10 whose only activity
(a budget row) is on day 5, i.e. before signup. -/
def dbEarlyActivity : Database :=
  ⟨[⟨"u1", 10, false⟩], [("u1", 5)], [], [], [], [], [], [], []⟩

/-- Dormancy example: `u1` is active on day -5 only, `u2` on day 3 only. -/
def dbDormant : Database :=
  ⟨[], [("u1", -5), ("u2", 3)], [], [], [], [], [], [], []⟩

/-- Retention example: two users signing up on day 0; only `u1` returns,
on day 1. -/
def dbRetention : Database :=
  ⟨[⟨"u1", 0, false⟩, ⟨"u2", 0, false⟩], [("u1", 1)], [], [], [], [], [], [], []⟩

/-- Late-return example: `u1` signs up on day 0 and is active on day 1,
one day after the analysis window `[0, 0]` closes. -/
def dbLateReturn : Database :=
  ⟨[⟨"u1", 0, false⟩], [("u1", 1)], [], [], [], [], [], [], []⟩

/-- Trend example: a single activity row on day 0; day 1 has none. -/
def dbTrend : Database :=
  ⟨[], [("u1", 0)], [], [], [], [], [], [], []⟩

/-- First cache example database. -/
def dbCacheOld : Database :=
  ⟨[], [("u1", 5)], [], [], [], [], [], [], []⟩

/-- Second cache example database: the budget row was deleted between the
two calls. -/
def dbCacheNew : Database :=
  ⟨[], [], [], [], [], [], [], [], []⟩

/-! ### General counting lemmas -/

theorem countDistinct_eq_card {α : Type} [DecidableEq α] (l : List α) :
    countDistinct l = l.toFinset.card := by
  rw [countDistinct, List.card_toFinset]

theorem length_eq_of_nodup_mem_iff {α : Type} [DecidableEq α] {l₁ l₂ : List α}
    (h₁ : l₁.Nodup) (h₂ : l₂.Nodup) (h : ∀ x, x ∈ l₁ ↔ x ∈ l₂) :
    l₁.length = l₂.length := by
  have e1 : l₁.toFinset = l₂.toFinset := by
    ext x
    simp only [List.mem_toFinset]
    exact h x
  have c1 := List.card_toFinset l₁
  have c2 := List.card_toFinset l₂
  rw [List.Nodup.dedup h₁] at c1
  rw [List.Nodup.dedup h₂] at c2
  rw [← c1, ← c2, e1]

theorem countDistinct_le_of_mem_imp {α : Type} [DecidableEq α] {l₁ l₂ : List α}
    (h : ∀ x ∈ l₁, x ∈ l₂) : countDistinct l₁ ≤ countDistinct l₂ := by
  rw [countDistinct_eq_card, countDistinct_eq_card]
  refine Finset.card_le_card fun x hx => ?_
  rw [List.mem_toFinset] at hx ⊢
  exact h x hx

theorem countDistinct_pos_of_mem {α : Type} [DecidableEq α] {l : List α} {x : α}
    (h : x ∈ l) : 1 ≤ countDistinct l := by
  rw [countDistinct_eq_card]
  exact Finset.card_pos.mpr ⟨x, List.mem_toFinset.mpr h⟩

theorem length_filter_partition {α : Type} (l : List α) (p q : α → Bool)
    (h : ∀ x ∈ l, (p x = true ∨ q x = true) ∧ ¬(p x = true ∧ q x = true)) :
    (l.filter p).length + (l.filter q).length = l.length := by
  induction l with
  | nil => rfl
  | cons a t ih =>
    have ha := h a (List.mem_cons_self a t)
    have ht := ih fun x hx => h x (List.mem_cons_of_mem a hx)
    by_cases hp : p a = true
    · have hq : q a = false := by
        cases hqa : q a
        · rfl
        · exact absurd ⟨hp, hqa⟩ ha.2
      simp only [List.filter_cons, hp, hq, if_true, Bool.false_eq_true, if_false,
        List.length_cons]
      omega
    · have hpf : p a = false := by
        cases hpa : p a
        · rfl
        · exact absurd hpa hp
      have hq : q a = true := ha.1.resolve_left hp
      simp only [List.filter_cons, hpf, hq, if_true, Bool.false_eq_true, if_false,
        List.length_cons]
      omega

theorem nodup_of_length_le_one {α : Type} {l : List α} (h : l.length ≤ 1) : l.Nodup := by
  match l with
  | [] => exact List.nodup_nil
  | [a] => exact List.nodup_singleton a
  | a :: b :: t => simp at h

theorem nodup_map_flatMap {α β : Type} (l : List α) (g : α → List β) (f : β → α)
    (hl : l.Nodup) (hg : ∀ a, ∀ b ∈ g a, f b = a) (hlen : ∀ a, (g a).length ≤ 1) :
    ((l.flatMap g).map f).Nodup := by
  induction l with
  | nil => simp
  | cons a t ih =>
    rw [List.flatMap_cons, List.map_append]
    refine List.Nodup.append ?_ (ih (List.Nodup.of_cons hl)) ?_
    · refine nodup_of_length_le_one ?_
      rw [List.length_map]
      exact hlen a
    · intro x hx1 hx2
      rw [List.mem_map] at hx1
      obtain ⟨b, hb, rfl⟩ := hx1
      rw [List.mem_map] at hx2
      obtain ⟨b2, hb2, he2⟩ := hx2
      rw [List.mem_flatMap] at hb2
      obtain ⟨c, hc, hbc⟩ := hb2
      have h1 : f b = a := hg a b hb
      have h2 : f b2 = c := hg c b2 hbc
      rw [h1] at he2
      have hca : c = a := by rw [← h2, he2]
      rw [hca] at hc
      exact (List.nodup_cons.mp hl).1 hc

theorem length_flatMap_sum {α β : Type} (l : List α) (g : α → List β) :
    (l.flatMap g).length = (l.map fun a => (g a).length).sum := by
  induction l with
  | nil => rfl
  | cons a t ih => simp [List.flatMap_cons, ih]

theorem filter_flatMap {α β : Type} (l : List α) (g : α → List β) (p : β → Bool) :
    (l.flatMap g).filter p = l.flatMap fun a => (g a).filter p := by
  induction l with
  | nil => rfl
  | cons a t ih => simp [List.flatMap_cons, List.filter_append, ih]

theorem minDate_cons (a : Int) (t : List Int) :
    minDate (a :: t) = match minDate t with
      | none => some a
      | some m => some (min a m) := rfl

theorem minDate_eq_none_iff {l : List Int} : minDate l = none ↔ l = [] := by
  cases l with
  | nil => simp [minDate]
  | cons a t =>
    rw [minDate_cons]
    cases minDate t <;> simp

theorem minDate_mem : ∀ {l : List Int} {d : Int}, minDate l = some d → d ∈ l := by
  intro l
  induction l with
  | nil =>
    intro d h
    exact Option.noConfusion h
  | cons a t ih =>
    intro d h
    rw [minDate_cons] at h
    cases ht : minDate t with
    | none =>
      rw [ht] at h
      simp only [Option.some.injEq] at h
      rw [← h]
      exact List.mem_cons_self a t
    | some m =>
      rw [ht] at h
      simp only [Option.some.injEq] at h
      rcases le_total a m with hle | hle
      · rw [min_eq_left hle] at h
        rw [← h]
        exact List.mem_cons_self a t
      · rw [min_eq_right hle] at h
        exact List.mem_cons_of_mem a (ih (h ▸ ht))

theorem minDate_le : ∀ {l : List Int} {d : Int}, minDate l = some d → ∀ x ∈ l, d ≤ x := by
  intro l
  induction l with
  | nil =>
    intro d h
    exact Option.noConfusion h
  | cons a t ih =>
    intro d h x hx
    rw [minDate_cons] at h
    cases ht : minDate t with
    | none =>
      rw [ht] at h
      simp only [Option.some.injEq] at h
      have hte : t = [] := minDate_eq_none_iff.mp ht
      subst hte
      rcases List.mem_cons.mp hx with rfl | hxt
      · omega
      · exact absurd hxt (List.not_mem_nil x)
    | some m =>
      rw [ht] at h
      simp only [Option.some.injEq] at h
      rcases List.mem_cons.mp hx with rfl | hxt
      · calc d = min x m := h.symm
          _ ≤ x := min_le_left x m
      · have hm : m ≤ x := ih ht x hxt
        calc d = min a m := h.symm
          _ ≤ m := min_le_right a m
          _ ≤ x := hm

theorem minDate_eq_some_of_mem {l : List Int} (h : l ≠ []) : ∃ d, minDate l = some d := by
  cases hm : minDate l with
  | none => exact absurd (minDate_eq_none_iff.mp hm) h
  | some d => exact ⟨d, rfl⟩

/-! ### Structure of the comprehensive-metrics query -/

theorem mem_windowUsage {db : Database} {s e : Int} {ev : Event} :
    ev ∈ windowUsage db s e ↔ ev ∈ allFeatureUsage db ∧ s ≤ ev.date ∧ ev.date ≤ e := by
  simp [windowUsage, List.mem_filter, inWindow]

theorem nodup_summaryUsers (db : Database) (s e : Int) : (summaryUsers db s e).Nodup :=
  List.nodup_dedup _

theorem mem_summaryUsers {db : Database} {s e : Int} {u : String} :
    u ∈ summaryUsers db s e ↔ ∃ ev ∈ windowUsage db s e, ev.uid = u := by
  simp [summaryUsers, List.mem_dedup, List.mem_map]

theorem activeDays_pos {db : Database} {s e : Int} {u : String}
    (h : u ∈ summaryUsers db s e) : 1 ≤ activeDays db s e u := by
  obtain ⟨ev, hev, hu⟩ := mem_summaryUsers.mp h
  refine countDistinct_pos_of_mem (x := ev.date) ?_
  rw [List.mem_map]
  exact ⟨ev, List.mem_filter.mpr ⟨hev, by simp [hu]⟩, rfl⟩

theorem featureCountOf_pos {db : Database} {s e : Int} {u : String}
    (h : u ∈ summaryUsers db s e) : 1 ≤ featureCountOf db s e u := by
  obtain ⟨ev, hev, hu⟩ := mem_summaryUsers.mp h
  refine countDistinct_pos_of_mem (x := ev.feature) ?_
  rw [List.mem_map]
  exact ⟨ev, List.mem_filter.mpr ⟨hev, by simp [hu]⟩, rfl⟩

theorem mem_userClassification {db : Database} {s e : Int} {r : ClassRow} :
    r ∈ userClassification db s e ↔
      r.uid ∈ summaryUsers db s e ∧ (r.uid, r.signup) ∈ usersFiltered db ∧
        r.firstEverDate = firstEver db r.uid ∧
        r.activeDaysInPeriod = activeDays db s e r.uid := by
  constructor
  · intro h
    rw [userClassification, List.mem_flatMap] at h
    obtain ⟨uid, huid, hr⟩ := h
    rw [List.mem_map] at hr
    obtain ⟨p, hp, rfl⟩ := hr
    rw [List.mem_filter] at hp
    have hp1 : p.1 = uid := by simpa using hp.2
    refine ⟨huid, ?_, rfl, rfl⟩
    have hpe : p = (uid, p.2) := by
      rw [← hp1]
    rw [← hpe]
    exact hp.1
  · rintro ⟨h1, h2, h3, h4⟩
    rw [userClassification, List.mem_flatMap]
    refine ⟨r.uid, h1, ?_⟩
    rw [List.mem_map]
    refine ⟨(r.uid, r.signup), List.mem_filter.mpr ⟨h2, by simp⟩, ?_⟩
    cases r with
    | mk u sg fe ad =>
      simp only at h3 h4 ⊢
      rw [← h3, ← h4]

theorem nodup_usersFiltered_fst {db : Database} (h : (db.users.map UserRow.uid).Nodup) :
    ((usersFiltered db).map Prod.fst).Nodup := by
  rw [usersFiltered, List.map_map]
  have he : (Prod.fst ∘ fun u : UserRow => (u.uid, u.signup)) = UserRow.uid := rfl
  rw [he]
  exact ((List.filter_sublist _).map UserRow.uid).nodup h

theorem count_key_le_one {α β : Type} [DecidableEq α] {l : List (α × β)}
    (h : (l.map Prod.fst).Nodup) (a : α) :
    (l.filter fun p => decide (p.1 = a)).length ≤ 1 := by
  induction l with
  | nil => simp
  | cons x t ih =>
    rw [List.map_cons, List.nodup_cons] at h
    rw [List.filter_cons]
    by_cases hx : x.1 = a
    · have hnil : (t.filter fun p => decide (p.1 = a)).length = 0 := by
        rw [List.length_eq_zero]
        rw [List.filter_eq_nil_iff]
        intro p hp
        simp only [decide_eq_true_eq]
        intro hpa
        exact h.1 (by rw [hx, ← hpa]; exact List.mem_map_of_mem Prod.fst hp)
      simp only [hx, decide_True, if_true, List.length_cons, hnil]
      omega
    · simp only [hx, decide_False, Bool.false_eq_true, if_false]
      exact ih h.2

theorem nodup_classification_uid {db : Database} {s e : Int}
    (h : (db.users.map UserRow.uid).Nodup) :
    ((userClassification db s e).map ClassRow.uid).Nodup := by
  refine nodup_map_flatMap _ _ _ (nodup_summaryUsers db s e) ?_ ?_
  · intro uid r hr
    rw [List.mem_map] at hr
    obtain ⟨p, hp, rfl⟩ := hr
    rfl
  · intro uid
    rw [List.length_map]
    exact count_key_le_one (nodup_usersFiltered_fst h) uid

theorem total_active_eq_length {db : Database} {s e : Int}
    (h : (db.users.map UserRow.uid).Nodup) :
    total_active_users db s e = (userClassification db s e).length := by
  rw [total_active_users, countDistinct, List.Nodup.dedup (nodup_classification_uid h),
    List.length_map]

theorem one_time_add_recurring (db : Database) (s e : Int) :
    one_time_usage_users db s e + recurring_users db s e =
      (userClassification db s e).length := by
  refine length_filter_partition _ _ _ fun r hr => ?_
  have hm := mem_userClassification.mp hr
  have hpos : 1 ≤ r.activeDaysInPeriod := hm.2.2.2 ▸ activeDays_pos hm.1
  constructor
  · rcases Nat.lt_or_ge r.activeDaysInPeriod 2 with hlt | hge
    · left
      simp only [decide_eq_true_eq]
      omega
    · right
      simp only [decide_eq_true_eq]
      omega
  · rintro ⟨h1, h2⟩
    simp only [decide_eq_true_eq] at h1 h2
    omega

theorem summaryUsers_length (db : Database) (s e : Int) :
    (summaryUsers db s e).length = countDistinct ((windowUsage db s e).map Event.uid) := rfl

theorem total_active_le_summary (db : Database) (s e : Int) :
    total_active_users db s e ≤ (summaryUsers db s e).length := by
  rw [total_active_users]
  have hmem : ∀ x ∈ (userClassification db s e).map ClassRow.uid, x ∈ summaryUsers db s e := by
    intro x hx
    rw [List.mem_map] at hx
    obtain ⟨r, hr, rfl⟩ := hx
    exact (mem_userClassification.mp hr).1
  calc countDistinct ((userClassification db s e).map ClassRow.uid)
      ≤ countDistinct (summaryUsers db s e) := countDistinct_le_of_mem_imp hmem
    _ = (summaryUsers db s e).length := by
        rw [countDistinct, List.Nodup.dedup (nodup_summaryUsers db s e)]

/-! ### Claim C2 -/

/-- C2 (counterexample): with no registered user but one budget row for
`u1`, the window `[0, 0]` yields `single_feature_users = 1`,
`multiple_feature_users = 0` but `total_active_users = 0`, because the
single/multiple buckets are computed from the raw usage union while
`total_active_users` additionally joins to the non-restricted `users`
rows. -/
theorem single_add_multiple_ne_total_counterexample :
    single_feature_users dbNoUsers 0 0 + multiple_feature_users dbNoUsers 0 0 ≠
      total_active_users dbNoUsers 0 0 := by decide

/-- C2 (amended): for every date range,
`single_feature_users + multiple_feature_users` equals the number of
distinct users with at least one qualifying activity row in the window
(each such user falls in exactly one of the two buckets), and
`total_active_users` — which additionally requires a matching
non-restricted `users` row — never exceeds that sum. -/
theorem single_add_multiple_buckets (db : Database) (s e : Int) :
    single_feature_users db s e + multiple_feature_users db s e =
        (summaryUsers db s e).length ∧
      total_active_users db s e ≤
        single_feature_users db s e + multiple_feature_users db s e := by
  have hsum : single_feature_users db s e + multiple_feature_users db s e =
      (summaryUsers db s e).length := by
    refine length_filter_partition _ _ _ fun u hu => ?_
    have hpos := featureCountOf_pos hu
    constructor
    · rcases Nat.lt_or_ge 1 (featureCountOf db s e u) with hlt | hge
      · right
        simpa using hlt
      · left
        simp only [decide_eq_true_eq]
        omega
    · rintro ⟨h1, h2⟩
      simp only [decide_eq_true_eq] at h1 h2
      omega
  exact ⟨hsum, hsum ▸ total_active_le_summary db s e⟩

/-! ### Claim C3 -/

/-- C3 (counterexample): in the same database, `spending_users = 1` exceeds
`total_active_users = 0`, because the per-feature counts are taken from
the raw usage union without the join to non-restricted registered users
that `total_active_users` performs. -/
theorem feature_users_gt_total_counterexample :
    ¬ (feature_users dbNoUsers 0 0 .spending ≤ total_active_users dbNoUsers 0 0) := by decide

/-- C3 (amended): for every date range and feature, the per-feature
active-user count is at most the number of distinct users with any
qualifying activity in the window (the un-joined union count), and
`total_active_users` is also bounded by that count — but
`total_active_users` itself can be smaller than a per-feature count. -/
theorem feature_users_le_usage_active (db : Database) (s e : Int) (f : Feature) :
    feature_users db s e f ≤ (summaryUsers db s e).length ∧
      total_active_users db s e ≤ (summaryUsers db s e).length := by
  refine ⟨?_, total_active_le_summary db s e⟩
  rw [summaryUsers_length]
  refine countDistinct_le_of_mem_imp fun x hx => ?_
  rw [List.mem_map] at hx ⊢
  obtain ⟨ev, hev, rfl⟩ := hx
  exact ⟨ev, (List.mem_filter.mp hev).1, rfl⟩

/-! ### Claim C9 -/

/-- C9: for every date range (with the `users` primary key genuinely
unique), `one_time_usage_users + recurring_users = total_active_users`:
every classified user has at least one distinct activity day in the
window, `active_days = 1` maps to one-time and `active_days ≥ 2` to
recurring. -/
theorem one_time_add_recurring_eq_total (db : Database) (s e : Int)
    (h : (db.users.map UserRow.uid).Nodup) :
    one_time_usage_users db s e + recurring_users db s e = total_active_users db s e := by
  rw [total_active_eq_length h, one_time_add_recurring]

/-- C9 (witness): the one-user database at window `[0, 20]`. -/
theorem one_time_add_recurring_eq_total_witness :
    (dbEarlyActivity.users.map UserRow.uid).Nodup ∧
      one_time_usage_users dbEarlyActivity 0 20 + recurring_users dbEarlyActivity 0 20 =
        total_active_users dbEarlyActivity 0 20 :=
  ⟨by decide, one_time_add_recurring_eq_total dbEarlyActivity 0 20 (by decide)⟩

/-! ### Claim C8 -/

/-- C8 (counterexample): on connection failure `fetch_churn_count` returns
the integer `0`, not an empty table. -/
theorem churn_failure_not_empty_table_counterexample :
    isEmptyTable (churnReturn none 0 0) = false := by decide

/-- C8 (amended): when the database connection cannot be acquired, every
one of the eleven query functions returns its empty or zero default — an
empty frame for the frame-valued functions, a triple (resp. pair) of
empty frames for `fetch_trend_data` (resp. `load_ffp_data`), the integer
`0` for `fetch_churn_count`, and the empty dict for
`fetch_absolute_metrics` — and, the embedded functions being total, no
exception crosses the query-function boundary. -/
theorem connection_failure_defaults (s e : Int) (f : Option Feature) (feat : Feature)
    (g : Granularity) (n : Nat) :
    fetchComprehensiveMetrics none s e = [] ∧
      fetchFeatureCombinations none s e = [] ∧
      fetchFeatureSpecificMetrics none s e feat = [] ∧
      fetchRetentionMetrics none s e f = [] ∧
      fetchTrendData none s e f = ([], [], []) ∧
      fetchOverviewTrend none s e g = [] ∧
      fetchChurnCount none s e = 0 ∧
      fetchDormantUsersAnalysis none s e n = [] ∧
      fetchDormantUsersTrend none s e n = [] ∧
      fetchAbsoluteMetrics none e = [] ∧
      loadFfpData none = ([], []) :=
  ⟨rfl, rfl, rfl, rfl, rfl, rfl, rfl, rfl, rfl, rfl, rfl⟩

/-! ### Claim C7 -/

/-- C7: a second call to a cached query function with identical arguments
within the TTL window returns the stored result of the first call without
re-executing the underlying query — even if the underlying data changed
between the calls (the second call's compute function `g` is never
consulted for `key`) — while a call differing in its arguments is a
distinct cache entry and computes fresh. -/
theorem cache_ttl_idempotence {κ α : Type} [DecidableEq κ] (ttl t0 t1 : Nat)
    (f g : κ → α) (key key2 : κ) (httl : t1 - t0 < ttl) (hk : key2 ≠ key) :
    (getOrCompute ttl t1 g (getOrCompute ttl t0 f [] key).2 key).1 = f key ∧
      (getOrCompute ttl t1 g (getOrCompute ttl t0 f [] key).2 key2).1 = g key2 := by
  have h1 : (getOrCompute ttl t0 f [] key).2 = [(key, CacheEntry.mk (f key) t0)] := rfl
  rw [h1]
  constructor
  · rw [getOrCompute]
    simp [List.find?, httl]
  · rw [getOrCompute]
    have hne : (key = key2) = False := by
      simp [Ne.symm hk]
    simp [List.find?, hne]

/-- C7 (witness): the churn query cached at `t = 0` over the old database
is served stale at `t = 299 < 300` even though the budget row has been
deleted in the meantime (and the stale value visibly differs from the
fresh one), while the call with different date arguments computes fresh
from the new database. -/
theorem cache_ttl_idempotence_witness :
    ((299 : Nat) - 0 < 300) ∧ (((0, 10) : Int × Int) ≠ ((11, 20) : Int × Int)) ∧
      churn_count dbCacheOld 11 20 ≠ churn_count dbCacheNew 11 20 ∧
      (getOrCompute 300 299 (fun p : Int × Int => churn_count dbCacheNew p.1 p.2)
        (getOrCompute 300 0 (fun p : Int × Int => churn_count dbCacheOld p.1 p.2) []
          ((11, 20) : Int × Int)).2 ((11, 20) : Int × Int)).1 = churn_count dbCacheOld 11 20 ∧
      (getOrCompute 300 299 (fun p : Int × Int => churn_count dbCacheNew p.1 p.2)
        (getOrCompute 300 0 (fun p : Int × Int => churn_count dbCacheOld p.1 p.2) []
          ((11, 20) : Int × Int)).2 ((0, 10) : Int × Int)).1 = churn_count dbCacheNew 0 10 :=
  ⟨by decide, by decide, by decide,
    (cache_ttl_idempotence 300 0 299 (fun p : Int × Int => churn_count dbCacheOld p.1 p.2)
      (fun p : Int × Int => churn_count dbCacheNew p.1 p.2) (11, 20) (0, 10) (by decide)
      (by decide)).1,
    (cache_ttl_idempotence 300 0 299 (fun p : Int × Int => churn_count dbCacheOld p.1 p.2)
      (fun p : Int × Int => churn_count dbCacheNew p.1 p.2) (11, 20) (0, 10) (by decide)
      (by decide)).2⟩

/-! ### Claim C5 -/

theorem countDistinct_eq_zero_iff {α : Type} [DecidableEq α] {l : List α} :
    countDistinct l = 0 ↔ l = [] := by
  rw [countDistinct, List.length_eq_zero, List.dedup_eq_nil]

theorem retentionNumerator_le (db : Database) (s e : Int) (f : Option Feature)
    (flag : JoinedRow → Bool) :
    retentionNumerator db s e f flag ≤ retention_total_signups db s e f := by
  refine countDistinct_le_of_mem_imp fun x hx => ?_
  rw [List.mem_map] at hx ⊢
  obtain ⟨r, hr, rfl⟩ := hx
  exact ⟨r, (List.mem_filter.mp hr).1, rfl⟩

theorem retention_total_signups_eq_zero_iff (db : Database) (s e : Int) (f : Option Feature) :
    retention_total_signups db s e f = 0 ↔ usersFilteredInWindow db s e = [] := by
  rw [retention_total_signups, countDistinct_eq_zero_iff, List.map_eq_nil_iff]
  cases hsu : usersFilteredInWindow db s e with
  | nil => simp [retentionJoined, hsu]
  | cons su t =>
    constructor
    · intro hj
      exfalso
      rw [retentionJoined, hsu, List.flatMap_cons] at hj
      rcases List.append_eq_nil.mp hj with ⟨hg, _⟩
      by_cases hemp : ((windowEventsFor db s e f).filter fun a => decide (a.1 = su.1)).isEmpty
      · rw [if_pos hemp] at hg
        exact List.cons_ne_nil _ _ hg
      · rw [if_neg hemp] at hg
        rw [List.map_eq_nil_iff] at hg
        rw [hg] at hemp
        exact hemp rfl
    · intro h
      exact absurd h (List.cons_ne_nil su t)

theorem retentionRate_none_iff {num den : Nat} : retentionRate num den = none ↔ den = 0 := by
  rw [retentionRate]
  split
  · simp_all
  · simp_all

theorem retentionRate_bounds {num den : Nat} (h : num ≤ den) :
    ∀ r, retentionRate num den = some r → 0 ≤ r ∧ r ≤ 1 := by
  intro r hr
  rw [retentionRate] at hr
  split at hr
  · exact absurd hr (by simp)
  · rename_i hden
    rw [Option.some.injEq] at hr
    subst hr
    have hdpos : (0 : ℚ) < (den : ℚ) := by
      exact_mod_cast Nat.pos_of_ne_zero hden
    constructor
    · positivity
    · rw [div_le_one hdpos]
      exact_mod_cast h

/-- C5: for every date range and optional feature filter, each retention
rate is `none` exactly when the signup cohort is empty (the `NULLIF`
guard, so an empty cohort never divides by zero), and any returned value
lies in the closed interval `[0, 1]`. -/
theorem retention_rates_bounded (db : Database) (s e : Int) (f : Option Feature) :
    (day1_retention db s e f = none ↔ usersFilteredInWindow db s e = []) ∧
      (week1_retention db s e f = none ↔ usersFilteredInWindow db s e = []) ∧
      (month1_retention db s e f = none ↔ usersFilteredInWindow db s e = []) ∧
      (∀ r, day1_retention db s e f = some r → 0 ≤ r ∧ r ≤ 1) ∧
      (∀ r, week1_retention db s e f = some r → 0 ≤ r ∧ r ≤ 1) ∧
      (∀ r, month1_retention db s e f = some r → 0 ≤ r ∧ r ≤ 1) := by
  refine ⟨?_, ?_, ?_, ?_, ?_, ?_⟩
  · rw [day1_retention, retentionRate_none_iff, retention_total_signups_eq_zero_iff]
  · rw [week1_retention, retentionRate_none_iff, retention_total_signups_eq_zero_iff]
  · rw [month1_retention, retentionRate_none_iff, retention_total_signups_eq_zero_iff]
  · exact retentionRate_bounds (retentionNumerator_le db s e f day1Flag)
  · exact retentionRate_bounds (retentionNumerator_le db s e f week1Flag)
  · exact retentionRate_bounds (retentionNumerator_le db s e f month1Flag)

/-- C5 (witness): two signups on day 0, one next-day return: the day-1
retention rate is `1/2` and lies in `[0, 1]`. -/
theorem retention_rates_bounded_witness :
    day1_retention dbRetention 0 3 none = some ((1 : ℚ) / 2) ∧
      0 ≤ ((1 : ℚ) / 2) ∧ ((1 : ℚ) / 2) ≤ 1 := by
  have hn : retentionNumerator dbRetention 0 3 none day1Flag = 1 := by decide
  have hd : retention_total_signups dbRetention 0 3 none = 2 := by decide
  have hsome : day1_retention dbRetention 0 3 none = some ((1 : ℚ) / 2) := by
    rw [day1_retention, hn, hd, retentionRate]
    norm_num
  exact ⟨hsome, (retention_rates_bounded dbRetention 0 3 none).2.2.2.1 _ hsome⟩

/-! ### Claim C10 -/

theorem mem_windowEventsFor {db : Database} {s e : Int} {f : Option Feature} {p : String × Int}
    (h : p ∈ windowEventsFor db s e f) : p ∈ rawPairsFor db f ∧ s ≤ p.2 ∧ p.2 ≤ e := by
  cases f with
  | none =>
    simp only [windowEventsFor, List.mem_dedup, List.mem_append, List.mem_filter, inWindow,
      decide_eq_true_eq] at h
    simp only [rawPairsFor, List.mem_append]
    tauto
  | some feat =>
    cases feat with
    | spending =>
      simp only [windowEventsFor, featureWindowEvents, List.mem_dedup, List.mem_append,
        List.mem_filter, inWindow, decide_eq_true_eq] at h
      simp only [rawPairsFor, List.mem_append]
      tauto
    | savings =>
      simp only [windowEventsFor, featureWindowEvents, List.mem_filter, inWindow,
        decide_eq_true_eq] at h
      simp only [rawPairsFor]
      tauto
    | investment =>
      simp only [windowEventsFor, featureWindowEvents, List.mem_filter, inWindow,
        decide_eq_true_eq] at h
      simp only [rawPairsFor]
      tauto
    | lady_ai =>
      simp only [windowEventsFor, featureWindowEvents, List.mem_filter, inWindow,
        decide_eq_true_eq] at h
      simp only [rawPairsFor]
      tauto

theorem mem_retentionJoined_activity {db : Database} {s e : Int} {f : Option Feature}
    {r : JoinedRow} (hr : r ∈ retentionJoined db s e f) :
    r.activity = none ∨ ∃ p ∈ windowEventsFor db s e f, p.1 = r.uid ∧ r.activity = some p.2 := by
  rw [retentionJoined, List.mem_flatMap] at hr
  obtain ⟨su, hsu, hr2⟩ := hr
  by_cases hemp : ((windowEventsFor db s e f).filter fun a => decide (a.1 = su.1)).isEmpty
  · rw [if_pos hemp, List.mem_singleton] at hr2
    subst hr2
    exact Or.inl rfl
  · rw [if_neg hemp, List.mem_map] at hr2
    obtain ⟨a, ha, hre⟩ := hr2
    rw [List.mem_filter] at ha
    right
    refine ⟨a, ha.1, ?_, ?_⟩
    · have h1 : a.1 = su.1 := by simpa using ha.2
      rw [← hre]
      exact h1
    · rw [← hre]

/-- C10: the retention numerators only see return activity inside the
caller's `[start, end]` window — every non-null joined activity date lies
in the window, and a cohort user all of whose activity rows fall outside
the window is counted in none of the day-1 / week-1 / month-1 numerators
(even when such a row would qualify relative to their signup date). -/
theorem retention_return_window_scoped (db : Database) (s e : Int) (f : Option Feature)
    (u : String)
    (hout : ∀ p ∈ rawPairsFor db f, p.1 = u → ¬(s ≤ p.2 ∧ p.2 ≤ e)) :
    (∀ r ∈ retentionJoined db s e f, ∀ d, r.activity = some d → s ≤ d ∧ d ≤ e) ∧
      u ∉ ((retentionJoined db s e f).filter day1Flag).map JoinedRow.uid ∧
      u ∉ ((retentionJoined db s e f).filter week1Flag).map JoinedRow.uid ∧
      u ∉ ((retentionJoined db s e f).filter month1Flag).map JoinedRow.uid := by
  have hwin : ∀ r ∈ retentionJoined db s e f, ∀ d, r.activity = some d → s ≤ d ∧ d ≤ e := by
    intro r hr d hd
    rcases mem_retentionJoined_activity hr with hnone | ⟨p, hp, hpu, hpa⟩
    · rw [hnone] at hd
      exact Option.noConfusion hd
    · rw [hpa] at hd
      rw [Option.some.injEq] at hd
      rw [← hd]
      exact (mem_windowEventsFor hp).2
  have hnot : ∀ flag : JoinedRow → Bool,
      (∀ r, flag r = true → ∃ d, r.activity = some d) →
      u ∉ ((retentionJoined db s e f).filter flag).map JoinedRow.uid := by
    intro flag hflag hx
    rw [List.mem_map] at hx
    obtain ⟨r, hr, huid⟩ := hx
    rw [List.mem_filter] at hr
    obtain ⟨d, hd⟩ := hflag r hr.2
    rcases mem_retentionJoined_activity hr.1 with hnone | ⟨p, hp, hpu, hpa⟩
    · rw [hnone] at hd
      exact Option.noConfusion hd
    · obtain ⟨hraw, hw⟩ := mem_windowEventsFor hp
      exact hout p hraw (by rw [hpu, huid]) hw
  refine ⟨hwin, ?_, ?_, ?_⟩
  · refine hnot day1Flag fun r hfl => ?_
    rw [day1Flag, decide_eq_true_eq] at hfl
    exact ⟨r.signup + 1, hfl⟩
  · refine hnot week1Flag fun r hfl => ?_
    cases hact : r.activity with
    | none =>
      rw [week1Flag, hact] at hfl
      exact Bool.noConfusion hfl
    | some d => exact ⟨d, rfl⟩
  · refine hnot month1Flag fun r hfl => ?_
    cases hact : r.activity with
    | none =>
      rw [month1Flag, hact] at hfl
      exact Bool.noConfusion hfl
    | some d => exact ⟨d, rfl⟩

/-- C10 (witness): `u1` signs up on day 0 and returns on day 1 — within 30
days of signup but outside the analysis window `[0, 0]` — and is counted
in no numerator. -/
theorem retention_return_window_scoped_witness :
    (∀ p ∈ rawPairsFor dbLateReturn none, p.1 = "u1" → ¬((0 : Int) ≤ p.2 ∧ p.2 ≤ 0)) ∧
      "u1" ∉ ((retentionJoined dbLateReturn 0 0 none).filter month1Flag).map JoinedRow.uid :=
  ⟨by decide,
    (retention_return_window_scoped dbLateReturn 0 0 none "u1" (by decide)).2.2.2⟩

/-! ### Claim C4 -/

theorem mem_allUserIds {db : Database} {u : String} :
    u ∈ allUserIds db ↔ ∃ ev ∈ allFeatureUsage db, ev.uid = u := by
  rw [allUserIds, List.mem_dedup]
  simp [List.mem_map]

theorem mem_usersActiveIn {db : Database} {f : Option Feature} {a b : Int} {u : String} :
    u ∈ usersActiveIn db f a b ↔
      ∃ ev ∈ allFeatureUsage db,
        ev.uid = u ∧ featMatch f ev = true ∧ a ≤ ev.date ∧ ev.date ≤ b := by
  rw [usersActiveIn, List.mem_dedup]
  constructor
  · intro h
    rw [List.mem_map] at h
    obtain ⟨ev, hev, rfl⟩ := h
    rw [List.mem_filter] at hev
    have hw := hev.2
    rw [Bool.and_eq_true] at hw
    refine ⟨ev, hev.1, rfl, hw.1, ?_⟩
    have := hw.2
    rw [inWindow, decide_eq_true_eq] at this
    exact this
  · rintro ⟨ev, hev, rfl, hf, h1, h2⟩
    rw [List.mem_map]
    refine ⟨ev, List.mem_filter.mpr ⟨hev, ?_⟩, rfl⟩
    rw [Bool.and_eq_true]
    exact ⟨hf, by rw [inWindow, decide_eq_true_eq]; exact ⟨h1, h2⟩⟩

theorem dormant_char (db : Database) (f : Option Feature) (s e : Int) (n : Nat)
    (hse : s ≤ e) :
    (dormantUsers db f s e n).length =
      ((allUserIds db).filter fun u => decide (specDormant db f s e n u)).length := by
  refine length_eq_of_nodup_mem_iff (List.Nodup.filter _ (List.nodup_dedup _))
    (List.Nodup.filter _ (List.nodup_dedup _)) fun u => ?_
  rw [dormantUsers, List.mem_filter, List.mem_filter]
  constructor
  · rintro ⟨hhist, hncur⟩
    rw [Bool.not_eq_eq_eq_not, Bool.not_true, decide_eq_false_iff_not] at hncur
    obtain ⟨ev, hev, hu, hf, h1, h2⟩ := mem_usersActiveIn.mp hhist
    have hnone : ∀ ev2 ∈ allFeatureUsage db, ev2.uid = u → featMatch f ev2 = true →
        ¬(s ≤ ev2.date ∧ ev2.date ≤ e) := by
      intro ev2 hev2 hu2 hf2 hc
      exact hncur (mem_usersActiveIn.mpr ⟨ev2, hev2, hu2, hf2, hc.1, hc.2⟩)
    have hlt : ev.date < s := by
      rcases lt_or_eq_of_le h2 with hlt | heq
      · exact hlt
      · exact absurd ⟨le_of_eq heq.symm, heq ▸ hse⟩ (hnone ev hev hu hf)
    refine ⟨mem_allUserIds.mpr ⟨ev, hev, hu⟩, ?_⟩
    rw [decide_eq_true_eq]
    exact ⟨⟨ev, hev, hu, hf, h1, hlt⟩, hnone⟩
  · rintro ⟨hall, hspec⟩
    rw [decide_eq_true_eq] at hspec
    obtain ⟨⟨ev, hev, hu, hf, h1, hlt⟩, hnone⟩ := hspec
    refine ⟨mem_usersActiveIn.mpr ⟨ev, hev, hu, hf, h1, le_of_lt hlt⟩, ?_⟩
    rw [Bool.not_eq_eq_eq_not, Bool.not_true, decide_eq_false_iff_not]
    intro hcur
    obtain ⟨ev2, hev2, hu2, hf2, hc1, hc2⟩ := mem_usersActiveIn.mp hcur
    exact hnone ev2 hev2 hu2 hf2 ⟨hc1, hc2⟩

/-- C4: with a non-degenerate analysis window (`start ≤ end`), a user is
counted as dormant — overall and per feature — exactly when they have at
least one (feature-matching) activity event in the half-open lookback
window `[start - n, start)` and none in the closed analysis window
`[start, end]`.  (The SQL lookback bound is the closed `BETWEEN
start - n AND start`, but a user active exactly on `start` is active in
the analysis window too, so the anti-join removes them; the two
definitions coincide.) -/
theorem dormant_users_characterization (db : Database) (s e : Int) (n : Nat)
    (hse : s ≤ e) :
    (overall_dormant_users db s e n =
        ((allUserIds db).filter fun u => decide (specDormant db none s e n u)).length) ∧
      ∀ f : Feature, feature_dormant_users db f s e n =
        ((allUserIds db).filter fun u => decide (specDormant db (some f) s e n u)).length :=
  ⟨dormant_char db none s e n hse, fun f => dormant_char db (some f) s e n hse⟩

/-- C4 (witness): lookback 30 days, window `[0, 30]`: `u1` (active on day
-5 only) is dormant overall and for `spending`; `u2` (active on day 3) is
not. -/
theorem dormant_users_characterization_witness :
    ((0 : Int) ≤ 30) ∧
      overall_dormant_users dbDormant 0 30 30 =
        ((allUserIds dbDormant).filter fun u =>
          decide (specDormant dbDormant none 0 30 30 u)).length ∧
      feature_dormant_users dbDormant .spending 0 30 30 =
        ((allUserIds dbDormant).filter fun u =>
          decide (specDormant dbDormant (some .spending) 0 30 30 u)).length :=
  ⟨by decide, (dormant_users_characterization dbDormant 0 30 30 (by decide)).1,
    (dormant_users_characterization dbDormant 0 30 30 (by decide)).2 .spending⟩

/-! ### Claim C6 -/

theorem overviewUsage_date_raw {db : Database} {s e : Int} {ev : Event}
    (h : ev ∈ overviewUsage db s e) : ∃ p ∈ rawPairsFor db none, p.2 = ev.date := by
  simp only [overviewUsage, List.mem_append, List.mem_map, List.mem_filter] at h
  simp only [rawPairsFor, List.mem_append]
  rcases h with ((((⟨b, hb, rfl⟩ | ⟨b, hb, rfl⟩) | ⟨p, hp, rfl⟩) | ⟨p, hp, rfl⟩) | ⟨b, hb, rfl⟩)
  · exact ⟨b, by tauto, rfl⟩
  · exact ⟨b, by tauto, rfl⟩
  · exact ⟨p, by tauto, rfl⟩
  · exact ⟨p, by tauto, rfl⟩
  · exact ⟨b, by tauto, rfl⟩

/-- C6 (counterexample): with one activity row on day 0 and the window
`[0, 1]`, day 1 lies in the generated calendar sequence and has zero
activity, yet the DAU series of `fetch_trend_data` has no row for it at
all (with count 0 or otherwise) — that series only contains dates with at
least one usage row. -/
theorem dau_series_omits_zero_day_counterexample :
    (1 : Int) ∈ generatedSeries .day 0 1 ∧
      (∀ p ∈ rawPairsFor dbTrend none, p.2 ≠ 1) ∧
      ((1 : Int), 0) ∉ (fetchTrendData (some dbTrend) 0 1 none).1 ∧
      (1 : Int) ∉ ((fetchTrendData (some dbTrend) 0 1 none).1.map Prod.fst) := by decide

/-- C6 (amended): the overview trend (`fetch_overview_trend`) is dense and
gap-filled — its rows are exactly the generated calendar sequence, and a
day inside the range with zero activity appears with an active-user count
coalesced to 0 — whereas the DAU series of `fetch_trend_data` omits such
a day entirely. -/
theorem overview_trend_gap_filled (db : Database) (s e d : Int) (g : Granularity)
    (hd : d ∈ generatedSeries .day s e)
    (hno : ∀ p ∈ rawPairsFor db none, p.2 ≠ d) :
    ((overviewTrendActive db s e g).map Prod.fst = generatedSeries g s e) ∧
      (d, 0) ∈ overviewTrendActive db s e .day ∧
      d ∉ ((dauSeries db s e none).map Prod.fst) := by
  refine ⟨?_, ?_, ?_⟩
  · rw [overviewTrendActive, List.map_map]
    have hcomp : (Prod.fst ∘ fun x : Int =>
        (x, (((overviewActiveBy db s e g).find? fun p => decide (p.1 = x)).map
          Prod.snd).getD 0)) = fun x : Int => x := rfl
    rw [hcomp]
    exact List.map_id' _
  · rw [overviewTrendActive, List.mem_map]
    refine ⟨d, hd, ?_⟩
    have hfind : ((overviewActiveBy db s e .day).find? fun p => decide (p.1 = d)) = none := by
      rw [List.find?_eq_none]
      intro x hx
      rw [overviewActiveBy, List.mem_map] at hx
      obtain ⟨dt, hdt, rfl⟩ := hx
      rw [List.mem_dedup, List.mem_map] at hdt
      obtain ⟨ev, hev, hdte⟩ := hdt
      simp only [decide_eq_true_eq]
      intro hc
      obtain ⟨p, hp, hpd⟩ := overviewUsage_date_raw hev
      exact hno p hp (by rw [hpd]; exact hdte.trans hc)
    rw [hfind]
    rfl
  · intro hx
    rw [dauSeries, List.mem_map] at hx
    obtain ⟨pr, hpr, hfst⟩ := hx
    rw [List.mem_map] at hpr
    obtain ⟨dt, hdt, rfl⟩ := hpr
    rw [List.mem_dedup, List.mem_map] at hdt
    obtain ⟨q, hq, hqd⟩ := hdt
    exact hno q (mem_windowEventsFor hq).1 (by rw [hqd]; exact hfst)

/-- C6 (witness): in the same one-row database, the overview trend rows
for `[0, 1]` are exactly the two generated days, day 1 appears with count
0, and day 1 is absent from the sparse DAU series. -/
theorem overview_trend_gap_filled_witness :
    ((1 : Int) ∈ generatedSeries .day 0 1) ∧
      (∀ p ∈ rawPairsFor dbTrend none, p.2 ≠ 1) ∧
      ((overviewTrendActive dbTrend 0 1 .day).map Prod.fst = generatedSeries .day 0 1 ∧
        ((1 : Int), 0) ∈ overviewTrendActive dbTrend 0 1 .day ∧
        (1 : Int) ∉ ((dauSeries dbTrend 0 1 none).map Prod.fst)) :=
  ⟨by decide, by decide, overview_trend_gap_filled dbTrend 0 1 1 .day (by decide) (by decide)⟩

/-! ### Claim C1 -/

theorem mem_usersFiltered {db : Database} {x : String} {y : Int} :
    (x, y) ∈ usersFiltered db ↔
      ∃ uu ∈ db.users, uu.restricted = false ∧ uu.uid = x ∧ uu.signup = y := by
  rw [usersFiltered, List.mem_map]
  constructor
  · rintro ⟨uu, huu, heq⟩
    rw [List.mem_filter] at huu
    have hres : uu.restricted = false := by simpa using huu.2
    have h1 : uu.uid = x := congrArg Prod.fst heq
    have h2 : uu.signup = y := congrArg Prod.snd heq
    exact ⟨uu, huu.1, hres, h1, h2⟩
  · rintro ⟨uu, huu, hres, hx, hy⟩
    refine ⟨uu, List.mem_filter.mpr ⟨huu, ?_⟩, by rw [hx, hy]⟩
    simp [hres]

theorem firstEverInWindow_iff {db : Database} {s e : Int} {u : String} :
    firstEverInWindow db s e u = true ↔
      ((∃ ev ∈ allFeatureUsage db, ev.uid = u ∧ ev.date ≤ e) ∧
        ∀ ev ∈ allFeatureUsage db, ev.uid = u → s ≤ ev.date) := by
  constructor
  · intro h
    cases hm : firstEver db u with
    | none =>
      simp only [firstEverInWindow, hm] at h
      exact Bool.noConfusion h
    | some dmin =>
      simp only [firstEverInWindow, hm, inWindow, decide_eq_true_eq] at h
      have hmem := minDate_mem (show minDate (((allFeatureUsage db).filter fun ev =>
        decide (ev.uid = u)).map Event.date) = some dmin from hm)
      rw [List.mem_map] at hmem
      obtain ⟨ev0, hev0, hd0⟩ := hmem
      rw [List.mem_filter, decide_eq_true_eq] at hev0
      constructor
      · exact ⟨ev0, hev0.1, hev0.2, by rw [hd0]; exact h.2⟩
      · intro ev hev huid
        have hin : ev.date ∈ ((allFeatureUsage db).filter fun ev2 =>
            decide (ev2.uid = u)).map Event.date := by
          rw [List.mem_map]
          exact ⟨ev, List.mem_filter.mpr ⟨hev, by rw [decide_eq_true_eq]; exact huid⟩, rfl⟩
        have hle := minDate_le (show minDate (((allFeatureUsage db).filter fun ev2 =>
          decide (ev2.uid = u)).map Event.date) = some dmin from hm) ev.date hin
        omega
  · rintro ⟨⟨ev, hev, huid, hde⟩, hall⟩
    have hin : ev.date ∈ ((allFeatureUsage db).filter fun ev2 =>
        decide (ev2.uid = u)).map Event.date := by
      rw [List.mem_map]
      exact ⟨ev, List.mem_filter.mpr ⟨hev, by rw [decide_eq_true_eq]; exact huid⟩, rfl⟩
    obtain ⟨dmin, hm⟩ := minDate_eq_some_of_mem (List.ne_nil_of_mem hin)
    have hmem := minDate_mem hm
    rw [List.mem_map] at hmem
    obtain ⟨ev0, hev0, hd0⟩ := hmem
    rw [List.mem_filter, decide_eq_true_eq] at hev0
    simp only [firstEverInWindow, show firstEver db u = some dmin from hm, inWindow,
      decide_eq_true_eq]
    constructor
    · rw [← hd0]
      exact hall ev0 hev0.1 hev0.2
    · calc dmin ≤ ev.date := minDate_le hm ev.date hin
        _ ≤ e := hde

theorem firstEverInWindow_mem_summary {db : Database} {s e : Int} {u : String}
    (h : firstEverInWindow db s e u = true) : u ∈ summaryUsers db s e := by
  cases hm : firstEver db u with
  | none =>
    simp only [firstEverInWindow, hm] at h
    exact Bool.noConfusion h
  | some dmin =>
    simp only [firstEverInWindow, hm, inWindow, decide_eq_true_eq] at h
    have hmem := minDate_mem (show minDate (((allFeatureUsage db).filter fun ev =>
      decide (ev.uid = u)).map Event.date) = some dmin from hm)
    rw [List.mem_map] at hmem
    obtain ⟨ev0, hev0, hd0⟩ := hmem
    rw [List.mem_filter, decide_eq_true_eq] at hev0
    rw [mem_summaryUsers]
    refine ⟨ev0, mem_windowUsage.mpr ⟨hev0.1, ?_, ?_⟩, hev0.2⟩
    · rw [hd0]
      exact h.1
    · rw [hd0]
      exact h.2

theorem featureFirstAtLeastSignup_iff {db : Database} {s e : Int} {f : Feature}
    {uid : String} {sg : Int} :
    featureFirstAtLeastSignup db s e f uid sg = true ↔
      ((∃ p ∈ featureWindowEvents db s e f, p.1 = uid) ∧
        ∀ p ∈ featureWindowEvents db s e f, p.1 = uid → sg ≤ p.2) := by
  constructor
  · intro h
    cases hm : userFirstActivity db s e f uid with
    | none =>
      simp only [featureFirstAtLeastSignup, hm] at h
      exact Bool.noConfusion h
    | some dmin =>
      simp only [featureFirstAtLeastSignup, hm, decide_eq_true_eq] at h
      have hmem := minDate_mem (show minDate (((featureWindowEvents db s e f).filter fun p =>
        decide (p.1 = uid)).map Prod.snd) = some dmin from hm)
      rw [List.mem_map] at hmem
      obtain ⟨p0, hp0, hd0⟩ := hmem
      rw [List.mem_filter, decide_eq_true_eq] at hp0
      constructor
      · exact ⟨p0, hp0.1, hp0.2⟩
      · intro p hp hpu
        have hin : p.2 ∈ ((featureWindowEvents db s e f).filter fun q =>
            decide (q.1 = uid)).map Prod.snd := by
          rw [List.mem_map]
          exact ⟨p, List.mem_filter.mpr ⟨hp, by rw [decide_eq_true_eq]; exact hpu⟩, rfl⟩
        have hle := minDate_le (show minDate (((featureWindowEvents db s e f).filter fun q =>
          decide (q.1 = uid)).map Prod.snd) = some dmin from hm) p.2 hin
        omega
  · rintro ⟨⟨p, hp, hpu⟩, hall⟩
    have hin : p.2 ∈ ((featureWindowEvents db s e f).filter fun q =>
        decide (q.1 = uid)).map Prod.snd := by
      rw [List.mem_map]
      exact ⟨p, List.mem_filter.mpr ⟨hp, by rw [decide_eq_true_eq]; exact hpu⟩, rfl⟩
    obtain ⟨dmin, hm⟩ := minDate_eq_some_of_mem (List.ne_nil_of_mem hin)
    have hmem := minDate_mem hm
    rw [List.mem_map] at hmem
    obtain ⟨p0, hp0, hd0⟩ := hmem
    rw [List.mem_filter, decide_eq_true_eq] at hp0
    simp only [featureFirstAtLeastSignup,
      show userFirstActivity db s e f uid = some dmin from hm, decide_eq_true_eq]
    rw [← hd0]
    exact hall p0 hp0.1 hp0.2

theorem bool_eq_of_true_iff {a b : Bool} (h : a = true ↔ b = true) : a = b := by
  cases a <;> cases b <;> simp_all

/-- C1 (counterexample): user `u1` signs up on day 10 but their earliest
activity ever is day 5; over the window `[0, 20]` the comprehensive query
counts them as a first-time user (its flag checks only
`first_ever_activity_date BETWEEN start AND end` and never compares
against the signup date), while the spec's classification would not. -/
theorem first_time_users_counterexample :
    first_time_users dbEarlyActivity 0 20 ≠ claimedFirstTimeUsers dbEarlyActivity 0 20 := by
  decide

/-- C1 (amended): with unique user ids, the comprehensive
`first_time_users` counts exactly the non-restricted registered users
whose earliest activity ever falls inside the window — with no
signup-date condition — while the feature-specific `first_time_users`
counts the non-restricted users who signed up inside the window and whose
earliest activity for that feature *within the window* (not across all
history) is on or after their signup date. -/
theorem first_time_users_characterization (db : Database) (s e : Int) (f : Feature)
    (h : (db.users.map UserRow.uid).Nodup) :
    (first_time_users db s e =
        (db.users.filter fun uu => !uu.restricted &&
          decide ((∃ ev ∈ allFeatureUsage db, ev.uid = uu.uid ∧ ev.date ≤ e) ∧
            ∀ ev ∈ allFeatureUsage db, ev.uid = uu.uid → s ≤ ev.date)).length) ∧
      feature_first_time_users db s e f =
        (db.users.filter fun uu => !uu.restricted && inWindow s e uu.signup &&
          decide ((∃ p ∈ featureWindowEvents db s e f, p.1 = uu.uid) ∧
            ∀ p ∈ featureWindowEvents db s e f, p.1 = uu.uid → uu.signup ≤ p.2)).length := by
  constructor
  · rw [first_time_users,
      show ((userClassification db s e).filter (isFirstTimeFlag s e)).length =
        (((userClassification db s e).filter (isFirstTimeFlag s e)).map ClassRow.uid).length
        from (List.length_map _ _).symm,
      show (db.users.filter fun uu => !uu.restricted &&
          decide ((∃ ev ∈ allFeatureUsage db, ev.uid = uu.uid ∧ ev.date ≤ e) ∧
            ∀ ev ∈ allFeatureUsage db, ev.uid = uu.uid → s ≤ ev.date)).length =
        ((db.users.filter fun uu => !uu.restricted &&
          decide ((∃ ev ∈ allFeatureUsage db, ev.uid = uu.uid ∧ ev.date ≤ e) ∧
            ∀ ev ∈ allFeatureUsage db, ev.uid = uu.uid → s ≤ ev.date)).map UserRow.uid).length
        from (List.length_map _ _).symm]
    refine length_eq_of_nodup_mem_iff
      (((List.filter_sublist _).map ClassRow.uid).nodup (nodup_classification_uid h))
      (((List.filter_sublist _).map UserRow.uid).nodup h) fun x => ?_
    constructor
    · intro hx
      rw [List.mem_map] at hx
      obtain ⟨r, hr, rfl⟩ := hx
      rw [List.mem_filter] at hr
      obtain ⟨hsum, hus, hfe, _⟩ := mem_userClassification.mp hr.1
      have hflagu : firstEverInWindow db s e r.uid = true := by
        have heq : firstEverInWindow db s e r.uid = isFirstTimeFlag s e r := by
          simp only [firstEverInWindow, isFirstTimeFlag, hfe]
        rw [heq]
        exact hr.2
      obtain ⟨uu, huu, hres, hux, husg⟩ := mem_usersFiltered.mp hus
      rw [List.mem_map]
      refine ⟨uu, List.mem_filter.mpr ⟨huu, ?_⟩, hux⟩
      rw [Bool.and_eq_true]
      refine ⟨by simp [hres], ?_⟩
      rw [decide_eq_true_eq, hux]
      exact firstEverInWindow_iff.mp hflagu
    · intro hx
      rw [List.mem_map] at hx
      obtain ⟨uu, huu, rfl⟩ := hx
      rw [List.mem_filter, Bool.and_eq_true] at huu
      have huus := huu.1
      have hresb := huu.2.1
      have hcond := huu.2.2
      rw [decide_eq_true_eq] at hcond
      have hflagu : firstEverInWindow db s e uu.uid = true := firstEverInWindow_iff.mpr hcond
      have hsum : uu.uid ∈ summaryUsers db s e := firstEverInWindow_mem_summary hflagu
      have hrmem : ClassRow.mk uu.uid uu.signup (firstEver db uu.uid)
          (activeDays db s e uu.uid) ∈ userClassification db s e := by
        refine mem_userClassification.mpr ⟨hsum, ?_, rfl, rfl⟩
        exact mem_usersFiltered.mpr ⟨uu, huus, by simpa using hresb, rfl, rfl⟩
      rw [List.mem_map]
      exact ⟨ClassRow.mk uu.uid uu.signup (firstEver db uu.uid) (activeDays db s e uu.uid),
        List.mem_filter.mpr ⟨hrmem, hflagu⟩, rfl⟩
  · rw [feature_first_time_users, usersFilteredInWindow, List.filter_map, List.length_map,
      List.filter_filter]
    refine congrArg List.length (List.filter_congr fun uu _ => ?_)
    refine bool_eq_of_true_iff ?_
    rw [Bool.and_eq_true, Bool.and_eq_true, Bool.and_eq_true, Bool.and_eq_true,
      Function.comp_apply, decide_eq_true_eq]
    constructor
    · rintro ⟨hq, hres, hwin⟩
      exact ⟨⟨hres, hwin⟩, featureFirstAtLeastSignup_iff.mp hq⟩
    · rintro ⟨⟨hres, hwin⟩, hcond⟩
      exact ⟨featureFirstAtLeastSignup_iff.mpr hcond, hres, hwin⟩

/-- C1 (witness): the amended characterization at the early-activity
database over `[0, 20]` for the `spending` feature. -/
theorem first_time_users_characterization_witness :
    (dbEarlyActivity.users.map UserRow.uid).Nodup ∧
      first_time_users dbEarlyActivity 0 20 =
        (dbEarlyActivity.users.filter fun uu => !uu.restricted &&
          decide ((∃ ev ∈ allFeatureUsage dbEarlyActivity, ev.uid = uu.uid ∧ ev.date ≤ 20) ∧
            ∀ ev ∈ allFeatureUsage dbEarlyActivity, ev.uid = uu.uid → 0 ≤ ev.date)).length ∧
      feature_first_time_users dbEarlyActivity 0 20 .spending =
        (dbEarlyActivity.users.filter fun uu => !uu.restricted && inWindow 0 20 uu.signup &&
          decide ((∃ p ∈ featureWindowEvents dbEarlyActivity 0 20 .spending, p.1 = uu.uid) ∧
            ∀ p ∈ featureWindowEvents dbEarlyActivity 0 20 .spending,
              p.1 = uu.uid → uu.signup ≤ p.2)).length :=
  ⟨by decide,
    (first_time_users_characterization dbEarlyActivity 0 20 .spending (by decide)).1,
    (first_time_users_characterization dbEarlyActivity 0 20 .spending (by decide)).2⟩

end MD
